import Mathlib

/-!
A verification development for the GLPI ticket time-tracking tool
(`main.py`).  The definitions below are a shallow embedding of the
reconstruction core: group-token parsing, GLPI date parsing, the
per-group replay of assignment/unassignment log events, the all-groups
driver, and the cross-ticket aggregation fold.  Timestamps are modelled
as natural numbers (seconds since year 1, mirroring CPython's
`_ymd2ord`-based arithmetic); durations are integers, mirroring
`datetime.timedelta`, which may be negative.  A raised Python exception
is modelled as `Option.none`.
-/

/-! ## Python string primitives -/

/-- ASCII whitespace recognised by Python's `str.strip()` / `int()`
(the model restricts Python's unicode whitespace to its ASCII part,
which is all the repository's data can contain). -/
def isPySpace (c : Char) : Bool :=
  c == ' ' || c == '\t' || c == '\n' || c == '\r' || c == '\x0b' || c == '\x0c'

/-- Model of Python `str.strip()` on a list of characters. -/
def pyStrip (l : List Char) : List Char :=
  ((l.dropWhile isPySpace).reverse.dropWhile isPySpace).reverse

/-- Digit run with single underscores allowed between digits, as Python's
`int()` accepts; the first character must already be known to be a digit. -/
def digitsCore : Nat → List Char → Option Nat
  | acc, [] => some acc
  | acc, '_' :: c :: rest =>
      if c.isDigit then digitsCore (acc * 10 + (c.toNat - 48)) rest else none
  | acc, c :: rest =>
      if c.isDigit then digitsCore (acc * 10 + (c.toNat - 48)) rest else none

/-- Nonempty digit run (leading character must be a digit). -/
def parseDigits : List Char → Option Nat
  | [] => none
  | c :: rest => if c.isDigit then digitsCore (c.toNat - 48) rest else none

/-- Model of Python `int(s)`: strip whitespace, optional sign, digits
(single underscores permitted between digits). -/
def pyInt (s : List Char) : Option Int :=
  match pyStrip s with
  | '+' :: rest => (parseDigits rest).map Int.ofNat
  | '-' :: rest => (parseDigits rest).map (fun n => -(n : Int))
  | rest => (parseDigits rest).map Int.ofNat

/-- Model of Python `str.rfind(c)`: index of the last occurrence of `c`,
`-1` if absent. -/
def rfind (c : Char) : List Char → Int
  | [] => -1
  | x :: xs =>
      let r := rfind c xs
      if r == -1 then (if x == c then 0 else -1) else r + 1

/-- Highest index at which `c` occurs, if any (spec-side counterpart of
`rfind`, used by the spec-worded classifier below). -/
def lastIdxOf (c : Char) : List Char → Option Nat
  | [] => none
  | x :: xs =>
      match lastIdxOf c xs with
      | some i => some (i + 1)
      | none => if x == c then some 0 else none

/-! ## Group token parsing (`extract_group_info_from_value`) -/

/-- Structure `GroupInfo` from `main.py`: a group id with a display name. -/
structure GroupInfo where
  id : Int
  name : String
  deriving Repr, DecidableEq

/-- Function `extract_group_info_from_value` from `main.py` (lines 86-111): find
the last `(` and the last `)`; when both exist in order, `int()` the
text between them and take the stripped text before the `(` as the
name; any failure yields `none` (the `try/except` around `int`). -/
def extract_group_info_from_value (value : String) : Option GroupInfo :=
  if value.data.isEmpty || (pyStrip value.data).isEmpty then none
  else
    let start := rfind '(' value.data
    let stop := rfind ')' value.data
    if start != -1 && stop != -1 && start < stop then
      match pyInt ((value.data.take stop.toNat).drop (start.toNat + 1)) with
      | some group_id => some ⟨group_id, String.mk (pyStrip (value.data.take start.toNat))⟩
      | none => none
    else none

/-- Modelled from the spec: "scan for the last `(` and the last `)` in
the string; if both exist and `(` precedes `)`, the substring between
them (trimmed) must parse as an integer id; the name is everything
before the `(`, trimmed; any failure yields no identity".  Written
from the spec's words, to be compared with the source function. -/
def group_value_rule (value : String) : Option GroupInfo :=
  match lastIdxOf '(' value.data, lastIdxOf ')' value.data with
  | some i, some j =>
      if i < j then
        match pyInt ((value.data.take j).drop (i + 1)) with
        | some group_id => some ⟨group_id, String.mk (pyStrip (value.data.take i))⟩
        | none => none
      else none
  | _, _ => none

/-! ## GLPI date parsing (`parse_glpi_date`) -/

def isLeapYear (y : Nat) : Bool :=
  y % 4 == 0 && (y % 100 != 0 || y % 400 == 0)

def daysInMonth (y m : Nat) : Nat :=
  if m == 2 then (if isLeapYear y then 29 else 28)
  else if m == 4 || m == 6 || m == 9 || m == 11 then 30
  else 31

def daysBeforeMonth (y m : Nat) : Nat :=
  (List.range (m - 1)).foldl (fun acc i => acc + daysInMonth y (i + 1)) 0

/-- Days from 0001-01-01 to the given civil date (CPython `_ymd2ord`
minus one). -/
def ymdToDays (y m d : Nat) : Nat :=
  (y - 1) * 365 + (y - 1) / 4 - (y - 1) / 100 + (y - 1) / 400
    + daysBeforeMonth y m + (d - 1)

def charDigit (c : Char) : Option Nat :=
  if c.isDigit then some (c.toNat - 48) else none

def twoDigits (a b : Char) : Option Nat := do
  let x ← charDigit a
  let y ← charDigit b
  pure (x * 10 + y)

/-- Function `parse_glpi_date` from `main.py` (lines 76-78):
`datetime.strptime(date_str, '%Y-%m-%d %H:%M:%S')`, modelled for the
canonical zero-padded rendering that GLPI emits, including the range
checks the `datetime` constructor performs (month 1-12, day within the
month for the leap-aware calendar, hour below 24, minute and second
below 60, year at least `MINYEAR = 1`).  The result is the second count
since 0001-01-01 00:00:00, so that subtraction of two parsed dates
agrees with `datetime` subtraction in seconds.  A parse failure (the
raised `ValueError`) is `none`. -/
def parse_glpi_date (date_str : String) : Option Nat :=
  match date_str.data with
  | [y1, y2, y3, y4, '-', m1, m2, '-', d1, d2, ' ', h1, h2, ':', i1, i2, ':', s1, s2] => do
      let ya ← twoDigits y1 y2
      let yb ← twoDigits y3 y4
      let y := ya * 100 + yb
      let m ← twoDigits m1 m2
      let d ← twoDigits d1 d2
      let h ← twoDigits h1 h2
      let mi ← twoDigits i1 i2
      let s ← twoDigits s1 s2
      if 1 ≤ y && 1 ≤ m && m ≤ 12 && 1 ≤ d && d ≤ daysInMonth y m
          && h ≤ 23 && mi ≤ 59 && s ≤ 59 then
        pure (ymdToDays y m d * 86400 + h * 3600 + mi * 60 + s)
      else none
  | _ => none

/-! ## Log entries and the per-group replay -/

/-- Action codes from `main.py`. -/
def GROUP_ASSIGNED_ACTION : Int := 15

def GROUP_UNASSIGNED_ACTION : Int := 16

/-- One audit log entry, as the reconstruction reads it.  A missing
`itemtype_link` is the empty string (never equal to `"Group"`), and the
`int()` coercion GLPI guarantees for `linked_action` is reflected in
the `Int` type. -/
structure LogEntry where
  date_mod : String
  itemtype_link : String
  linked_action : Int
  new_value : String
  old_value : String
  deriving Repr, DecidableEq

/-- One assignment period as built by `calculate_time_spent_for_group`.
The Python dict for a closed period lacks the `still_assigned` key,
which readers interpret via `.get('still_assigned', False)`; the model
makes that a `Bool` field that is `false` for closed periods. -/
structure Period where
  assigned : Nat
  unassigned : Nat
  duration : Int
  still_assigned : Bool
  deriving Repr, DecidableEq

/-- The mutable locals of `calculate_time_spent_for_group`'s loop. -/
structure ReplayState where
  total_duration : Int
  last_assign_date : Option Nat
  is_assigned : Bool
  assignment_periods : List Period
  deriving Repr, DecidableEq

def initial_state : ReplayState := ⟨0, none, false, []⟩

/-- One iteration of the replay loop (`main.py` lines 175-201).  The
date is parsed unconditionally before any classification, so an entry
with an unparseable date raises (`none`) no matter which group or
action it concerns. -/
def replay_step (group_info : GroupInfo) (st : ReplayState) (l : LogEntry) : Option ReplayState :=
  match parse_glpi_date l.date_mod with
  | none => none
  | some date_mod =>
      if l.itemtype_link == "Group" && l.linked_action == GROUP_ASSIGNED_ACTION then
        match extract_group_info_from_value l.new_value with
        | some assigned_group =>
            if assigned_group.id == group_info.id && !st.is_assigned then
              some { st with last_assign_date := some date_mod, is_assigned := true }
            else some st
        | none => some st
      else if l.itemtype_link == "Group" && l.linked_action == GROUP_UNASSIGNED_ACTION then
        match extract_group_info_from_value l.old_value with
        | some unassigned_group =>
            if unassigned_group.id == group_info.id && st.is_assigned
                && st.last_assign_date.isSome then
              match st.last_assign_date with
              | some lad =>
                  some { total_duration := st.total_duration + ((date_mod : Int) - (lad : Int)),
                         last_assign_date := none,
                         is_assigned := false,
                         assignment_periods := st.assignment_periods ++
                           [{ assigned := lad, unassigned := date_mod,
                              duration := (date_mod : Int) - (lad : Int),
                              still_assigned := false }] }
              | none => some st
            else some st
        | none => some st
      else some st

/-- The replay loop over the whole (sorted) log list. -/
def replay_logs (group_info : GroupInfo) : ReplayState → List LogEntry → Option ReplayState
  | st, [] => some st
  | st, l :: rest =>
      match replay_step group_info st l with
      | some st2 => replay_logs group_info st2 rest
      | none => none

/-- Function `calculate_time_spent_for_group` from `main.py` (lines 150-217),
with the verbose printing dropped and the loop expressed as
`replay_logs`.  `now` stands for the value `datetime.datetime.now()`
returned at this call's single sample point (line 205). -/
def calculate_time_spent_for_group (logs : List LogEntry) (group_info : GroupInfo)
    (now : Nat) : Option (Int × List Period) :=
  match replay_logs group_info initial_state logs with
  | none => none
  | some st =>
      if st.is_assigned && st.last_assign_date.isSome then
        match st.last_assign_date with
        | some lad =>
            some (st.total_duration + ((now : Int) - (lad : Int)),
                  st.assignment_periods ++
                    [{ assigned := lad, unassigned := now,
                       duration := (now : Int) - (lad : Int), still_assigned := true }])
        | none => some (st.total_duration, st.assignment_periods)
      else some (st.total_duration, st.assignment_periods)

/-! ## Group discovery and the all-groups driver -/

/-- Insertion-ordered dictionary lookup (Python `dict` / `in`). -/
def dict_lookup (gid : Int) : List (Int × α) → Option α
  | [] => none
  | (k, v) :: rest => if k = gid then some v else dict_lookup gid rest

/-- Source line `groups[group_info.id] = group_info` guarded by
`group_info.id not in groups` (first-seen name wins, insertion order
kept). -/
def groups_add (groups : List (Int × GroupInfo)) (gi : GroupInfo) : List (Int × GroupInfo) :=
  if (dict_lookup gi.id groups).isSome then groups else groups ++ [(gi.id, gi)]

/-- Loop body of `get_all_groups_from_logs` (`main.py` lines 122-147). -/
def get_all_groups_go : List (Int × GroupInfo) → List LogEntry → List (Int × GroupInfo)
  | groups, [] => groups
  | groups, log :: rest =>
      if log.itemtype_link == "Group" then
        if log.linked_action == GROUP_ASSIGNED_ACTION then
          match extract_group_info_from_value log.new_value with
          | some gi => get_all_groups_go (groups_add groups gi) rest
          | none => get_all_groups_go groups rest
        else if log.linked_action == GROUP_UNASSIGNED_ACTION then
          match extract_group_info_from_value log.old_value with
          | some gi => get_all_groups_go (groups_add groups gi) rest
          | none => get_all_groups_go groups rest
        else get_all_groups_go groups rest
      else get_all_groups_go groups rest

def get_all_groups_from_logs (logs : List LogEntry) : List (Int × GroupInfo) :=
  get_all_groups_go [] logs

/-- Stable insertion: the new element comes from earlier in the
original list, so it is placed before any element it ties with. -/
def insertStable (le : α → α → Bool) (x : α) : List α → List α
  | [] => [x]
  | y :: ys => if le x y then x :: y :: ys else y :: insertStable le x ys

/-- Stable sort by a total preorder.  A stable sort's output is
determined uniquely by the preorder, so this agrees with Python's
(stable) `sorted`. -/
def stableSortBy (le : α → α → Bool) : List α → List α
  | [] => []
  | x :: xs => insertStable le x (stableSortBy le xs)

/-- Lexicographic order on code points: Python's `<=` on strings. -/
def charListLe : List Char → List Char → Bool
  | [], _ => true
  | _ :: _, [] => false
  | a :: as, b :: bs =>
      if a.toNat < b.toNat then true
      else if b.toNat < a.toNat then false
      else charListLe as bs

def pyStrLe (a b : String) : Bool := charListLe a.data b.data

/-- Source line `sorted(logs, key=lambda x: x['date_mod'])`: a stable sort on the
raw date string (Python compares strings by code point). -/
def sort_logs (logs : List LogEntry) : List LogEntry :=
  stableSortBy (fun a b => pyStrLe a.date_mod b.date_mod) logs

/-- Source loop `for group_id in sorted(groups.keys())`: since the keys are
distinct, iterating the key-sorted pairs is the source's
`groups[group_id]` lookup in ascending key order. -/
def sort_groups (gs : List (Int × GroupInfo)) : List (Int × GroupInfo) :=
  stableSortBy (fun a b => decide (a.1 ≤ b.1)) gs

/-- The per-group result record stored in `results[group_id]`. -/
structure GroupResult where
  group_info : GroupInfo
  total_duration : Int
  periods : List Period
  assignment_count : Nat
  deriving Repr, DecidableEq

/-- The result-building loop of `calculate_all_groups_time` (lines
245-255).  The index `i` counts the per-group calls: the i-th call
samples the wall clock anew (line 205), so it receives `clock i`. -/
def build_results (sorted_logs : List LogEntry) (clock : Nat → Nat) :
    Nat → List (Int × GroupInfo) → Option (List (Int × GroupResult))
  | _, [] => some []
  | i, (gid, gi) :: rest =>
      match calculate_time_spent_for_group sorted_logs gi (clock i) with
      | none => none
      | some (total, periods) =>
          match build_results sorted_logs clock (i + 1) rest with
          | none => none
          | some res => some ((gid, ⟨gi, total, periods, periods.length⟩) :: res)

/-- Function `calculate_all_groups_time` from `main.py` (lines 220-257): sort the
logs chronologically once, discover the groups, then run the per-group
replay for each group id in ascending order.  `clock` models the system
clock: `clock i` is the value `datetime.datetime.now()` returns at the
i-th per-group sample. -/
def calculate_all_groups_time (logs : List LogEntry) (clock : Nat → Nat) :
    Option (List (Int × GroupResult)) :=
  build_results (sort_logs logs) clock 0
    (sort_groups (get_all_groups_from_logs (sort_logs logs)))

/-! ## Event classification predicates (for stating the claims) -/

/-- The entry is an assignment event for the given group: the exact
condition of the replay's assign branch (`main.py` lines 179-181),
identity compared by id. -/
def isAssignFor (g : GroupInfo) (l : LogEntry) : Bool :=
  l.itemtype_link == "Group" && l.linked_action == GROUP_ASSIGNED_ACTION &&
    match extract_group_info_from_value l.new_value with
    | some gi => gi.id == g.id
    | none => false

/-- The entry is an unassignment event for the given group (`main.py`
lines 188-190). -/
def isUnassignFor (g : GroupInfo) (l : LogEntry) : Bool :=
  l.itemtype_link == "Group" && l.linked_action == GROUP_UNASSIGNED_ACTION &&
    match extract_group_info_from_value l.old_value with
    | some gi => gi.id == g.id
    | none => false

/-- The entry belongs to the given group under the replay's
classification. -/
def isEventFor (g : GroupInfo) (l : LogEntry) : Bool :=
  isAssignFor g l || isUnassignFor g l

/-- The entry mentions the group id as `get_all_groups_from_logs`
would discover it. -/
def mentionsGroup (gid : Int) (l : LogEntry) : Bool :=
  l.itemtype_link == "Group" &&
    ((l.linked_action == GROUP_ASSIGNED_ACTION &&
        match extract_group_info_from_value l.new_value with
        | some gi => gi.id == gid
        | none => false) ||
     (l.linked_action == GROUP_UNASSIGNED_ACTION &&
        match extract_group_info_from_value l.old_value with
        | some gi => gi.id == gid
        | none => false))

/-- All dates in the list parse: exactly the condition under which the
replay loop runs to completion without raising. -/
def DatesOk (logs : List LogEntry) : Prop :=
  ∀ l ∈ logs, (parse_glpi_date l.date_mod).isSome

instance : DecidablePred DatesOk := fun logs =>
  inferInstanceAs (Decidable (∀ l ∈ logs, (parse_glpi_date l.date_mod).isSome))

/-- The list is sorted by parsed timestamp, the state `reconstruct`
hands the replay after sorting canonical GLPI date strings. -/
def SortedByDate (logs : List LogEntry) : Prop :=
  logs.Pairwise (fun a b => ∀ ta tb, parse_glpi_date a.date_mod = some ta →
    parse_glpi_date b.date_mod = some tb → ta ≤ tb)

/-- The period's recorded duration is its end minus its start. -/
def PeriodHasDiff (p : Period) : Prop :=
  p.duration = (p.unassigned : Int) - (p.assigned : Int)

/-- A closed period has non-negative duration. -/
def ClosedNonneg (p : Period) : Prop :=
  p.still_assigned = false → 0 ≤ p.duration

/-- If an interval is open, its start is a lower bound for every parsed
timestamp still to be replayed. -/
def LadLB (st : ReplayState) (logs : List LogEntry) : Prop :=
  ∀ lad, st.last_assign_date = some lad →
    ∀ l ∈ logs, ∀ t, parse_glpi_date l.date_mod = some t → lad ≤ t

/-! ## Cross-ticket aggregation (`analyze_multiple_tickets`) -/

/-- The `defaultdict` default of `analyze_multiple_tickets`
(`main.py` lines 359-364). -/
structure GroupTotals where
  total_duration : Int
  ticket_count : Nat
  assignment_count : Nat
  group_info : Option GroupInfo
  deriving Repr, DecidableEq

def default_totals : GroupTotals := ⟨0, 0, 0, none⟩

/-- Python `defaultdict` access-and-update: modify the entry in place if the
key is present, otherwise append the updated default (insertion
order). -/
def upsert (f : GroupTotals → GroupTotals) : List (Int × GroupTotals) → Int → List (Int × GroupTotals)
  | [], gid => [(gid, f default_totals)]
  | (k, v) :: rest, gid =>
      if k = gid then (k, f v) :: rest else (k, v) :: upsert f rest gid

/-- The aggregation body for one `(group_id, data)` item (`main.py`
lines 379-384). -/
def upsert_entry (totals : List (Int × GroupTotals)) (gid : Int) (data : GroupResult) :
    List (Int × GroupTotals) :=
  upsert (fun tot =>
    { total_duration := tot.total_duration + data.total_duration,
      ticket_count := tot.ticket_count + 1,
      assignment_count := tot.assignment_count + data.assignment_count,
      group_info := match tot.group_info with
        | none => some data.group_info
        | some gi => some gi }) totals gid

/-- Folding one ticket's per-group results into the running totals.
(The source's `if results:` guard only affects the returned per-ticket
mapping; iterating an empty mapping leaves the totals unchanged either
way.) -/
def agg_ticket : List (Int × GroupTotals) → List (Int × GroupResult) → List (Int × GroupTotals)
  | totals, [] => totals
  | totals, (gid, data) :: rest => agg_ticket (upsert_entry totals gid data) rest

/-- The cross-ticket aggregation fold of `analyze_multiple_tickets`
(`main.py` lines 358-386), restricted to its pure core: the per-ticket
result mappings are already computed. -/
def aggregate_group_totals (tickets : List (List (Int × GroupResult))) :
    List (Int × GroupTotals) :=
  tickets.foldl agg_ticket []

/-- The order-insensitive view of one group's totals: total duration,
ticket count, assignment count (the claim's three fields; the
`group_info` field is first-seen and hence order-dependent). -/
def totalsView (totals : List (Int × GroupTotals)) (gid : Int) : Option (Int × Nat × Nat) :=
  (dict_lookup gid totals).map (fun x => (x.total_duration, x.ticket_count, x.assignment_count))

/-- The contribution of one ticket's result mapping to group `gid`'s
totals: added duration, number of matching items (each adds one to the
ticket count), added assignment count. -/
def contrib : List (Int × GroupResult) → Int → Int × Nat × Nat
  | [], _ => (0, 0, 0)
  | (k, data) :: rest, gid =>
      let c := contrib rest gid
      if k = gid then
        (data.total_duration + c.1, 1 + c.2.1, data.assignment_count + c.2.2)
      else c

/-- Folding one ticket's contribution into an optional running view:
an absent group stays absent when the ticket does not mention it. -/
def combineTotals : Option (Int × Nat × Nat) → Int × Nat × Nat → Option (Int × Nat × Nat)
  | some (d0, t0, a0), (d, t, a) => some (d0 + d, t0 + t, a0 + a)
  | none, (d, t, a) => if t = 0 then none else some (d, t, a)

/-! ## Concrete inputs used by counterexamples and witnesses -/

/-- End timestamps of the still-open periods across a result mapping,
in mapping order. -/
def openEnds (res : List (Int × GroupResult)) : List Nat :=
  res.foldr (fun x acc =>
    ((x.2.periods.filter (fun p => p.still_assigned)).map (fun p => p.unassigned)) ++ acc) []

def exGroup : GroupInfo := ⟨1, "Support"⟩

/-- Assign group 1 at second 5. -/
def exAssign1 : LogEntry := ⟨"0001-01-01 00:00:05", "Group", 15, "Support (1)", ""⟩

/-- Duplicate assign of group 1 at second 8. -/
def exAssign1b : LogEntry := ⟨"0001-01-01 00:00:08", "Group", 15, "Support (1)", ""⟩

/-- Unassign group 1 at second 10. -/
def exUnassign1 : LogEntry := ⟨"0001-01-01 00:00:10", "Group", 16, "", "Support (1)"⟩

/-- Assign group 2 at second 7. -/
def exAssign2 : LogEntry := ⟨"0001-01-01 00:00:07", "Group", 15, "Beta (2)", ""⟩

/-- Assign group 1 at second 100 (later than the `now` used against it). -/
def exAssignLate : LogEntry := ⟨"0001-01-01 00:01:40", "Group", 15, "Support (1)", ""⟩

/-- An entry whose timestamp `strptime` rejects. -/
def exBadDate : LogEntry := ⟨"not a date", "Group", 15, "Support (1)", ""⟩

/-- A clock that has advanced by one second at each successive
`datetime.datetime.now()` sample. -/
def tickingClock : Nat → Nat := fun i => 1000 + i

/-- A clock frozen at second 500. -/
def frozenClock : Nat → Nat := fun _ => 500

/-- A different clock that agrees with `frozenClock` at sample 0. -/
def frozenClock' : Nat → Nat := fun i => 500 * (i + 1)

/-! # Helper lemmas about one replay step -/

theorem replay_step_some_of_parse (g : GroupInfo) (st : ReplayState) (l : LogEntry) (d : Nat)
    (hd : parse_glpi_date l.date_mod = some d) :
    ∃ st2, replay_step g st l = some st2 := by
  unfold replay_step
  rw [hd]
  repeat' split
  all_goals first
  | exact ⟨_, rfl⟩
  | simp_all

theorem parse_isSome_of_replay_step (g : GroupInfo) (st : ReplayState) (l : LogEntry)
    (st2 : ReplayState) (h : replay_step g st l = some st2) :
    (parse_glpi_date l.date_mod).isSome := by
  unfold replay_step at h
  cases hp : parse_glpi_date l.date_mod with
  | none => rw [hp] at h; exact absurd h (by simp)
  | some d => simp

theorem replay_step_assign_open (g : GroupInfo) (st : ReplayState) (l : LogEntry) (d : Nat)
    (hl : isAssignFor g l = true) (hd : parse_glpi_date l.date_mod = some d)
    (ha : st.is_assigned = false) :
    replay_step g st l = some { st with last_assign_date := some d, is_assigned := true } := by
  unfold isAssignFor at hl
  rw [Bool.and_eq_true, Bool.and_eq_true] at hl
  obtain ⟨⟨h1, h2⟩, h3⟩ := hl
  cases hE : extract_group_info_from_value l.new_value with
  | none => rw [hE] at h3; exact absurd h3 (by simp)
  | some gi =>
      rw [hE] at h3
      simp only [beq_iff_eq] at h3
      unfold replay_step
      rw [hd]
      simp [h1, h2, hE, h3, ha]

theorem replay_step_assign_dup (g : GroupInfo) (st : ReplayState) (l : LogEntry) (d : Nat)
    (hl : isAssignFor g l = true) (hd : parse_glpi_date l.date_mod = some d)
    (ha : st.is_assigned = true) :
    replay_step g st l = some st := by
  unfold isAssignFor at hl
  rw [Bool.and_eq_true, Bool.and_eq_true] at hl
  obtain ⟨⟨h1, h2⟩, h3⟩ := hl
  cases hE : extract_group_info_from_value l.new_value with
  | none => rw [hE] at h3; exact absurd h3 (by simp)
  | some gi =>
      rw [hE] at h3
      simp only [beq_iff_eq] at h3
      unfold replay_step
      rw [hd]
      simp [h1, h2, hE, h3, ha]

theorem replay_step_unassign_close (g : GroupInfo) (st : ReplayState) (l : LogEntry)
    (d lad : Nat) (hl : isUnassignFor g l = true) (hd : parse_glpi_date l.date_mod = some d)
    (ha : st.is_assigned = true) (hlad : st.last_assign_date = some lad) :
    replay_step g st l =
      some { total_duration := st.total_duration + ((d : Int) - (lad : Int)),
             last_assign_date := none,
             is_assigned := false,
             assignment_periods := st.assignment_periods ++
               [{ assigned := lad, unassigned := d,
                  duration := (d : Int) - (lad : Int), still_assigned := false }] } := by
  unfold isUnassignFor at hl
  rw [Bool.and_eq_true, Bool.and_eq_true] at hl
  obtain ⟨⟨h1, h2⟩, h3⟩ := hl
  cases hE : extract_group_info_from_value l.old_value with
  | none => rw [hE] at h3; exact absurd h3 (by simp)
  | some gi =>
      rw [hE] at h3
      simp only [beq_iff_eq] at h3
      have h2' : l.linked_action = GROUP_UNASSIGNED_ACTION := by simpa using h2
      unfold replay_step
      rw [hd]
      simp [h1, h2', hE, h3, ha, hlad, GROUP_ASSIGNED_ACTION, GROUP_UNASSIGNED_ACTION]

theorem replay_step_unassign_noop (g : GroupInfo) (st : ReplayState) (l : LogEntry) (d : Nat)
    (hl : isUnassignFor g l = true) (hd : parse_glpi_date l.date_mod = some d)
    (ha : st.is_assigned = false) :
    replay_step g st l = some st := by
  unfold isUnassignFor at hl
  rw [Bool.and_eq_true, Bool.and_eq_true] at hl
  obtain ⟨⟨h1, h2⟩, h3⟩ := hl
  cases hE : extract_group_info_from_value l.old_value with
  | none => rw [hE] at h3; exact absurd h3 (by simp)
  | some gi =>
      rw [hE] at h3
      simp only [beq_iff_eq] at h3
      have h2' : l.linked_action = GROUP_UNASSIGNED_ACTION := by simpa using h2
      unfold replay_step
      rw [hd]
      simp [h1, h2', hE, h3, ha, GROUP_ASSIGNED_ACTION, GROUP_UNASSIGNED_ACTION]

theorem replay_step_irrelevant (g : GroupInfo) (st : ReplayState) (l : LogEntry) (d : Nat)
    (hd : parse_glpi_date l.date_mod = some d) (he : isEventFor g l = false) :
    replay_step g st l = some st := by
  unfold isEventFor at he
  rw [Bool.or_eq_false_iff] at he
  obtain ⟨hA, hU⟩ := he
  unfold isAssignFor at hA
  unfold isUnassignFor at hU
  unfold replay_step
  rw [hd]
  by_cases h1 : (l.itemtype_link == "Group" && l.linked_action == GROUP_ASSIGNED_ACTION) = true
  · cases hE : extract_group_info_from_value l.new_value with
    | none => simp [h1, hE]
    | some gi =>
        rw [hE] at hA
        simp only [h1, Bool.true_and] at hA
        simp [h1, hE, hA]
  · by_cases h2 : (l.itemtype_link == "Group" && l.linked_action == GROUP_UNASSIGNED_ACTION) = true
    · cases hE : extract_group_info_from_value l.old_value with
      | none => simp [h1, h2, hE]
      | some gi =>
          rw [hE] at hU
          simp only [h2, Bool.true_and] at hU
          simp [h1, h2, hE, hU]
    · simp [h1, h2]

theorem replay_step_none (g : GroupInfo) (st : ReplayState) (l : LogEntry)
    (h : replay_step g st l = none) : parse_glpi_date l.date_mod = none := by
  cases hp : parse_glpi_date l.date_mod with
  | none => rfl
  | some d =>
      obtain ⟨st2, hs⟩ := replay_step_some_of_parse g st l d hp
      rw [hs] at h
      exact absurd h (by simp)

/-! # Completion and noninterference of the replay loop -/

theorem DatesOk_cons (l : LogEntry) (rest : List LogEntry) :
    DatesOk (l :: rest) ↔ (parse_glpi_date l.date_mod).isSome ∧ DatesOk rest := by
  simp [DatesOk]

theorem replay_logs_isSome_iff (g : GroupInfo) :
    ∀ (logs : List LogEntry) (st : ReplayState),
      (replay_logs g st logs).isSome ↔ DatesOk logs
  | [], st => by simp [replay_logs, DatesOk]
  | l :: rest, st => by
      unfold replay_logs
      cases hs : replay_step g st l with
      | none =>
          have hp := replay_step_none g st l hs
          have hno : ¬ DatesOk (l :: rest) := by
            intro h
            have := h l (by simp)
            rw [hp] at this
            exact absurd this (by simp)
          simp [hno]
      | some st2 =>
          have hp := parse_isSome_of_replay_step g st l st2 hs
          rw [replay_logs_isSome_iff g rest st2, DatesOk_cons]
          simp [hp]

theorem replay_logs_filter (g : GroupInfo) :
    ∀ (logs : List LogEntry) (st : ReplayState), DatesOk logs →
      replay_logs g st logs = replay_logs g st (logs.filter (isEventFor g))
  | [], _, _ => rfl
  | l :: rest, st, h => by
      have hd' : (parse_glpi_date l.date_mod).isSome := h l (by simp)
      obtain ⟨d, hd⟩ := Option.isSome_iff_exists.mp hd'
      have hrest : DatesOk rest := fun x hx => h x (by simp [hx])
      by_cases he : isEventFor g l = true
      · rw [List.filter_cons_of_pos he]
        unfold replay_logs
        cases hs : replay_step g st l with
        | none => rfl
        | some st2 => exact replay_logs_filter g rest st2 hrest
      · have he' : isEventFor g l = false := by simpa using he
        rw [List.filter_cons_of_neg (by simp [he'])]
        have hstep := replay_step_irrelevant g st l d hd he'
        conv_lhs => unfold replay_logs
        rw [hstep]
        exact replay_logs_filter g rest st hrest

theorem calculate_isSome_iff (logs : List LogEntry) (g : GroupInfo) (now : Nat) :
    (calculate_time_spent_for_group logs g now).isSome ↔ DatesOk logs := by
  unfold calculate_time_spent_for_group
  have hiff := replay_logs_isSome_iff g logs initial_state
  cases hr : replay_logs g initial_state logs with
  | none =>
      rw [hr] at hiff
      simpa using hiff
  | some st =>
      rw [hr] at hiff
      simp only [Option.isSome_some, true_iff] at hiff
      repeat' split
      all_goals simp_all

theorem calculate_filter (logs : List LogEntry) (g : GroupInfo) (now : Nat)
    (h : DatesOk logs) :
    calculate_time_spent_for_group logs g now =
      calculate_time_spent_for_group (logs.filter (isEventFor g)) g now := by
  unfold calculate_time_spent_for_group
  rw [replay_logs_filter g logs initial_state h]

/-! # Shape of one replay step -/

theorem replay_step_cases (g : GroupInfo) (st : ReplayState) (l : LogEntry)
    (st2 : ReplayState) (h : replay_step g st l = some st2) :
    ∃ d, parse_glpi_date l.date_mod = some d ∧
      (st2 = st ∨
       st2 = { st with last_assign_date := some d, is_assigned := true } ∨
       ∃ lad, st.last_assign_date = some lad ∧
         st2 = { total_duration := st.total_duration + ((d : Int) - (lad : Int)),
                 last_assign_date := none,
                 is_assigned := false,
                 assignment_periods := st.assignment_periods ++
                   [{ assigned := lad, unassigned := d,
                      duration := (d : Int) - (lad : Int), still_assigned := false }] }) := by
  unfold replay_step at h
  cases hp : parse_glpi_date l.date_mod with
  | none => rw [hp] at h; exact absurd h (by simp)
  | some d =>
      rw [hp] at h
      refine ⟨d, rfl, ?_⟩
      simp only [] at h
      repeat' split at h
      all_goals injection h with h2
      all_goals subst h2
      · exact Or.inr (Or.inl rfl)
      · exact Or.inl rfl
      · exact Or.inl rfl
      · exact Or.inr (Or.inr ⟨_, by assumption, rfl⟩)
      · exact Or.inl rfl
      · exact Or.inl rfl
      · exact Or.inl rfl
      · exact Or.inl rfl

/-! # Interval well-formedness through the replay -/

theorem replay_logs_periods_diff (g : GroupInfo) :
    ∀ (logs : List LogEntry) (st st' : ReplayState),
      replay_logs g st logs = some st' →
      (∀ p ∈ st.assignment_periods, PeriodHasDiff p) →
      ∀ p ∈ st'.assignment_periods, PeriodHasDiff p
  | [], st, st', h, hst => by
      unfold replay_logs at h
      injection h with h2
      subst h2
      exact hst
  | l :: rest, st, st', h, hst => by
      unfold replay_logs at h
      cases hs : replay_step g st l with
      | none => rw [hs] at h; exact absurd h (by simp)
      | some st2 =>
          rw [hs] at h
          refine replay_logs_periods_diff g rest st2 st' h ?_
          obtain ⟨d, _, hc | hc | ⟨lad, _, hc⟩⟩ := replay_step_cases g st l st2 hs
          · subst hc; exact hst
          · subst hc; exact hst
          · subst hc
            intro p hp
            rcases List.mem_append.mp hp with hp | hp
            · exact hst p hp
            · rcases List.mem_singleton.mp hp with rfl
              exact rfl

theorem replay_logs_closed_nonneg (g : GroupInfo) :
    ∀ (logs : List LogEntry) (st st' : ReplayState),
      SortedByDate logs →
      replay_logs g st logs = some st' →
      (∀ p ∈ st.assignment_periods, ClosedNonneg p) →
      LadLB st logs →
      ∀ p ∈ st'.assignment_periods, ClosedNonneg p
  | [], st, st', _, h, hst, _ => by
      unfold replay_logs at h
      injection h with h2
      subst h2
      exact hst
  | l :: rest, st, st', hsorted, h, hst, hlb => by
      unfold replay_logs at h
      cases hs : replay_step g st l with
      | none => rw [hs] at h; exact absurd h (by simp)
      | some st2 =>
          rw [hs] at h
          unfold SortedByDate at hsorted
          rw [List.pairwise_cons] at hsorted
          obtain ⟨hhead, htail⟩ := hsorted
          obtain ⟨d, hd, hc | hc | ⟨lad, hlad, hc⟩⟩ := replay_step_cases g st l st2 hs
          · subst hc
            refine replay_logs_closed_nonneg g rest _ st' htail h hst ?_
            exact fun lad hl x hx t ht => hlb lad hl x (by simp [hx]) t ht
          · subst hc
            refine replay_logs_closed_nonneg g rest _ st' htail h hst ?_
            intro lad hl x hx t ht
            injection hl with hl2
            subst hl2
            exact hhead x hx d t hd ht
          · subst hc
            refine replay_logs_closed_nonneg g rest _ st' htail h ?_ ?_
            · intro p hp
              rcases List.mem_append.mp hp with hp | hp
              · exact hst p hp
              · rcases List.mem_singleton.mp hp with rfl
                intro _
                have hle : lad ≤ d := hlb lad hlad l (by simp) d hd
                simp only []
                omega
            · intro lad' hl'
              exact absurd hl' (by simp)

theorem replay_logs_cons (g : GroupInfo) (st : ReplayState) (l : LogEntry)
    (rest : List LogEntry) (st2 : ReplayState) (h : replay_step g st l = some st2) :
    replay_logs g st (l :: rest) = replay_logs g st2 rest := by
  conv_lhs => unfold replay_logs
  rw [h]

/-! # Claim C3: a well-formed assign/unassign pair -/

/-- C3: for every event sequence whose events for group `g` are exactly
an assignment at `t1` followed by an unassignment at `t2` with
`t1 < t2` (all timestamps parseable), the reconstruction yields for `g`
exactly one closed interval `[t1, t2)` with duration `t2 - t1` and
`still_assigned = false`. -/
theorem claim_C3 (logs : List LogEntry) (g : GroupInfo) (now t1 t2 : Nat)
    (e1 e2 : LogEntry)
    (hdates : DatesOk logs)
    (hfilter : logs.filter (isEventFor g) = [e1, e2])
    (ha : isAssignFor g e1 = true) (hu : isUnassignFor g e2 = true)
    (ht1 : parse_glpi_date e1.date_mod = some t1)
    (ht2 : parse_glpi_date e2.date_mod = some t2)
    (hlt : t1 < t2) :
    calculate_time_spent_for_group logs g now =
      some ((t2 : Int) - (t1 : Int),
            [{ assigned := t1, unassigned := t2,
               duration := (t2 : Int) - (t1 : Int), still_assigned := false }]) := by
  rw [calculate_filter logs g now hdates, hfilter]
  have s1 := replay_step_assign_open g initial_state e1 t1 ha ht1 rfl
  have s2 := replay_step_unassign_close g
    { initial_state with last_assign_date := some t1, is_assigned := true }
    e2 t2 t1 hu ht2 rfl rfl
  unfold calculate_time_spent_for_group
  rw [replay_logs_cons g initial_state e1 [e2] _ s1,
      replay_logs_cons g _ e2 [] _ s2]
  simp [replay_logs, initial_state]

/-- A concrete instance of C3: assign at second 5, unassign at second
10, one closed five-second interval. -/
theorem claim_C3_witness :
    calculate_time_spent_for_group [exAssign1, exUnassign1] exGroup 0 =
      some (5, [{ assigned := 5, unassigned := 10, duration := 5, still_assigned := false }]) := by
  have h := claim_C3 [exAssign1, exUnassign1] exGroup 0 5 10 exAssign1 exUnassign1
    (by decide) (by decide) (by decide) (by decide) (by decide) (by decide) (by decide)
  simpa using h

/-! # Claim C7: duplicate assign and unmatched unassign -/

/-- C7: a second assignment for a group with an open interval is
ignored (one interval, starting at the first assign), and an
unassignment with no open interval is a no-op producing zero intervals
without raising. -/
theorem claim_C7 :
    (∀ (logs : List LogEntry) (g : GroupInfo) (now t1 t2 : Nat) (e1 e2 : LogEntry),
      DatesOk logs →
      logs.filter (isEventFor g) = [e1, e2] →
      isAssignFor g e1 = true → isAssignFor g e2 = true →
      parse_glpi_date e1.date_mod = some t1 →
      parse_glpi_date e2.date_mod = some t2 →
      calculate_time_spent_for_group logs g now =
        some ((now : Int) - (t1 : Int),
              [{ assigned := t1, unassigned := now,
                 duration := (now : Int) - (t1 : Int), still_assigned := true }])) ∧
    (∀ (logs : List LogEntry) (g : GroupInfo) (now t : Nat) (e : LogEntry),
      DatesOk logs →
      logs.filter (isEventFor g) = [e] →
      isUnassignFor g e = true →
      parse_glpi_date e.date_mod = some t →
      calculate_time_spent_for_group logs g now = some (0, [])) := by
  constructor
  · intro logs g now t1 t2 e1 e2 hdates hfilter ha1 ha2 ht1 ht2
    rw [calculate_filter logs g now hdates, hfilter]
    have s1 := replay_step_assign_open g initial_state e1 t1 ha1 ht1 rfl
    have s2 := replay_step_assign_dup g
      { initial_state with last_assign_date := some t1, is_assigned := true }
      e2 t2 ha2 ht2 rfl
    unfold calculate_time_spent_for_group
    rw [replay_logs_cons g initial_state e1 [e2] _ s1,
        replay_logs_cons g _ e2 [] _ s2]
    simp [replay_logs, initial_state]
  · intro logs g now t e hdates hfilter hu ht
    rw [calculate_filter logs g now hdates, hfilter]
    have s1 := replay_step_unassign_noop g initial_state e t hu ht rfl
    unfold calculate_time_spent_for_group
    rw [replay_logs_cons g initial_state e [] _ s1]
    simp [replay_logs, initial_state]

/-- Concrete instances of both halves of C7: assigns at seconds 5 and
8 collapse to one open interval starting at 5; a lone unassign yields
zero intervals. -/
theorem claim_C7_witness :
    calculate_time_spent_for_group [exAssign1, exAssign1b] exGroup 20 =
      some (15, [{ assigned := 5, unassigned := 20, duration := 15, still_assigned := true }]) ∧
    calculate_time_spent_for_group [exUnassign1] exGroup 20 = some (0, []) := by
  constructor
  · have h := claim_C7.1 [exAssign1, exAssign1b] exGroup 20 5 8 exAssign1 exAssign1b
      (by decide) (by decide) (by decide) (by decide) (by decide) (by decide)
    simpa using h
  · exact claim_C7.2 [exUnassign1] exGroup 20 10 exUnassign1
      (by decide) (by decide) (by decide) (by decide)

/-! # Claim C10: per-group noninterference -/

/-- C10: when every entry's timestamp parses, the result for group `g`
depends only on the subsequence of entries classified as events for
`g`; two logs agreeing there (other groups' entries added, removed or
altered) give identical results for `g`. -/
theorem claim_C10 (logs1 logs2 : List LogEntry) (g : GroupInfo) (now : Nat)
    (h1 : DatesOk logs1) (h2 : DatesOk logs2)
    (hf : logs1.filter (isEventFor g) = logs2.filter (isEventFor g)) :
    calculate_time_spent_for_group logs1 g now =
      calculate_time_spent_for_group logs2 g now := by
  rw [calculate_filter logs1 g now h1, calculate_filter logs2 g now h2, hf]

/-- Concrete instance of C10: inserting another group's assignment
between group 1's events leaves group 1's result unchanged. -/
theorem claim_C10_witness :
    calculate_time_spent_for_group [exAssign1, exAssign2, exUnassign1] exGroup 0 =
      calculate_time_spent_for_group [exAssign1, exUnassign1] exGroup 0 :=
  claim_C10 [exAssign1, exAssign2, exUnassign1] [exAssign1, exUnassign1] exGroup 0
    (by decide) (by decide) (by decide)

/-! # Claim C4: failure semantics of the replay -/

/-- C4 (amended): the per-group replay completes without raising
exactly when every entry's timestamp parses; malformed group-value
tokens, unmatched unassigns and duplicate assigns are absorbed
silently, but an unparseable (or missing) timestamp raises and aborts
the reconstruction. -/
theorem claim_C4 (logs : List LogEntry) (g : GroupInfo) (now : Nat) :
    (calculate_time_spent_for_group logs g now).isSome ↔ DatesOk logs :=
  calculate_isSome_iff logs g now

/-- The claim as stated is false: a single entry with an unparseable
timestamp makes reconstruction raise (modelled as `none`) instead of
ignoring the event. -/
theorem claim_C4_counterexample :
    calculate_time_spent_for_group [exBadDate] exGroup 0 = none := by decide

/-- Concrete instance of the amended C4: with parseable timestamps the
replay completes. -/
theorem claim_C4_witness :
    (calculate_time_spent_for_group [exAssign1] exGroup 0).isSome :=
  (claim_C4 [exAssign1] exGroup 0).mpr (by decide)

theorem calculate_eq_of_replay (logs : List LogEntry) (g : GroupInfo) (now : Nat)
    (st : ReplayState) (hr : replay_logs g initial_state logs = some st) :
    calculate_time_spent_for_group logs g now =
      (if st.is_assigned && st.last_assign_date.isSome then
        match st.last_assign_date with
        | some lad =>
            some (st.total_duration + ((now : Int) - (lad : Int)),
                  st.assignment_periods ++
                    [{ assigned := lad, unassigned := now,
                       duration := (now : Int) - (lad : Int), still_assigned := true }])
        | none => some (st.total_duration, st.assignment_periods)
      else some (st.total_duration, st.assignment_periods)) := by
  unfold calculate_time_spent_for_group
  rw [hr]

/-! # Claim C8: interval durations -/

/-- C8 (amended): every interval the reconstruction produces, closed or
open, has `duration = end - start`; when the replay input is sorted by
parsed timestamp (which `calculate_all_groups_time` guarantees for
canonical GLPI date strings), every closed interval's duration is
non-negative.  An open interval's duration is `now - start` and may be
negative when the last assignment's timestamp is later than `now`. -/
theorem claim_C8 (logs : List LogEntry) (g : GroupInfo) (now : Nat)
    (total : Int) (periods : List Period)
    (h : calculate_time_spent_for_group logs g now = some (total, periods)) :
    (∀ p ∈ periods, PeriodHasDiff p) ∧
    (SortedByDate logs → ∀ p ∈ periods, ClosedNonneg p) := by
  cases hr : replay_logs g initial_state logs with
  | none =>
      rw [show calculate_time_spent_for_group logs g now = none by
        unfold calculate_time_spent_for_group; rw [hr]] at h
      exact absurd h (by simp)
  | some st =>
      rw [calculate_eq_of_replay logs g now st hr] at h
      have hdiff := replay_logs_periods_diff g logs initial_state st hr
        (by intro p hp; exact absurd hp (by simp [initial_state]))
      have hnn : SortedByDate logs → ∀ p ∈ st.assignment_periods, ClosedNonneg p := by
        intro hsorted
        refine replay_logs_closed_nonneg g logs initial_state st hsorted hr
          (by intro p hp; exact absurd hp (by simp [initial_state])) ?_
        intro lad hl
        exact absurd hl (by simp [initial_state])
      repeat' split at h
      all_goals injection h with h2
      all_goals injection h2 with h3 h4
      all_goals subst h3
      all_goals subst h4
      · constructor
        · intro p hp
          rcases List.mem_append.mp hp with hp | hp
          · exact hdiff p hp
          · rcases List.mem_singleton.mp hp with rfl
            exact rfl
        · intro hsorted p hp
          rcases List.mem_append.mp hp with hp | hp
          · exact hnn hsorted p hp
          · rcases List.mem_singleton.mp hp with rfl
            intro hfalse
            exact absurd hfalse (by simp)
      · exact ⟨hdiff, hnn⟩
      · exact ⟨hdiff, hnn⟩

/-- The claim as stated is false: an assignment whose timestamp
(second 100) is later than `now` (second 50) produces an open interval
with negative duration `-50`. -/
theorem claim_C8_counterexample :
    calculate_time_spent_for_group [exAssignLate] exGroup 50 =
      some (-50, [{ assigned := 100, unassigned := 50, duration := -50,
                    still_assigned := true }]) ∧ (-50 : Int) < 0 :=
  ⟨by decide, by decide⟩

/-- Concrete instance of the amended C8. -/
theorem claim_C8_witness :
    (∀ p ∈ [Period.mk 5 10 5 false], PeriodHasDiff p) ∧
    (SortedByDate [exAssign1, exUnassign1] →
      ∀ p ∈ [Period.mk 5 10 5 false], ClosedNonneg p) :=
  claim_C8 [exAssign1, exUnassign1] exGroup 0 5 [Period.mk 5 10 5 false] (by decide)

/-! # Sorting lemmas -/

theorem insertStable_length (le : α → α → Bool) (x : α) :
    ∀ l : List α, (insertStable le x l).length = l.length + 1
  | [] => rfl
  | y :: ys => by
      unfold insertStable
      split
      · rfl
      · simp [insertStable_length le x ys]

theorem stableSortBy_length (le : α → α → Bool) :
    ∀ l : List α, (stableSortBy le l).length = l.length
  | [] => rfl
  | x :: xs => by
      unfold stableSortBy
      rw [insertStable_length, stableSortBy_length le xs]
      simp

theorem insertStable_mem (le : α → α → Bool) (x a : α) :
    ∀ l : List α, a ∈ insertStable le x l ↔ a = x ∨ a ∈ l
  | [] => by simp [insertStable]
  | y :: ys => by
      unfold insertStable
      split
      · simp [or_comm, or_assoc, or_left_comm]
      · rw [List.mem_cons, insertStable_mem le x a ys]
        simp [or_comm, or_assoc, or_left_comm]

theorem stableSortBy_mem (le : α → α → Bool) (a : α) :
    ∀ l : List α, a ∈ stableSortBy le l ↔ a ∈ l
  | [] => Iff.rfl
  | x :: xs => by
      unfold stableSortBy
      rw [insertStable_mem, stableSortBy_mem le a xs]
      simp

/-! # Claim C5: reconstruction is a function of events and clock samples -/

theorem build_results_clock_congr (sl : List LogEntry) (c1 c2 : Nat → Nat) :
    ∀ (gs : List (Int × GroupInfo)) (i : Nat),
      (∀ j, j < gs.length → c1 (i + j) = c2 (i + j)) →
      build_results sl c1 i gs = build_results sl c2 i gs
  | [], _, _ => rfl
  | (gid, gi) :: rest, i, h => by
      unfold build_results
      have h0 : c1 i = c2 i := by simpa using h 0 (by simp)
      have hrest := build_results_clock_congr sl c1 c2 rest (i + 1) (fun j hj => by
        have hj' := h (j + 1) (by simpa using Nat.succ_lt_succ hj)
        have e : i + (j + 1) = i + 1 + j := by omega
        rwa [e] at hj')
      rw [h0, hrest]

/-- C5: the result mapping is a pure function of the event sequence
and the clock samples the per-group calls observe: two runs whose
clocks agree at every sample index used return identical mappings. -/
theorem claim_C5 (logs : List LogEntry) (c1 c2 : Nat → Nat)
    (h : ∀ i, i < (get_all_groups_from_logs (sort_logs logs)).length → c1 i = c2 i) :
    calculate_all_groups_time logs c1 = calculate_all_groups_time logs c2 := by
  unfold calculate_all_groups_time
  refine build_results_clock_congr (sort_logs logs) c1 c2 _ 0 ?_
  intro j hj
  simp only [Nat.zero_add]
  apply h
  unfold sort_groups at hj
  rwa [stableSortBy_length] at hj

/-- Concrete instance of C5: two different clock functions that agree
at the single sample the input needs. -/
theorem claim_C5_witness :
    calculate_all_groups_time [exAssign1] frozenClock =
      calculate_all_groups_time [exAssign1] frozenClock' := by
  refine claim_C5 [exAssign1] frozenClock frozenClock' ?_
  intro i hi
  have hlen : (get_all_groups_from_logs (sort_logs [exAssign1])).length = 1 := by decide
  rw [hlen] at hi
  interval_cases i
  decide

/-! # Claim C2: which groups appear in the result mapping -/

theorem dict_lookup_isSome (gid : Int) :
    ∀ l : List (Int × α), (dict_lookup gid l).isSome ↔ gid ∈ l.map Prod.fst
  | [] => by simp [dict_lookup]
  | (k, v) :: rest => by
      unfold dict_lookup
      by_cases hk : k = gid
      · simp [hk]
      · simp [hk, dict_lookup_isSome gid rest, Ne.symm hk]

theorem build_results_keys (sl : List LogEntry) (c : Nat → Nat) :
    ∀ (gs : List (Int × GroupInfo)) (i : Nat) (res : List (Int × GroupResult)),
      build_results sl c i gs = some res → res.map Prod.fst = gs.map Prod.fst
  | [], _, res, h => by
      unfold build_results at h
      injection h with h2
      subst h2
      rfl
  | (gid, gi) :: rest, i, res, h => by
      unfold build_results at h
      cases hc : calculate_time_spent_for_group sl gi (c i) with
      | none => rw [hc] at h; exact absurd h (by simp)
      | some pr =>
          rw [hc] at h
          cases hb : build_results sl c (i + 1) rest with
          | none =>
              rw [hb] at h
              obtain ⟨total, periods⟩ := pr
              exact absurd h (by simp)
          | some res' =>
              rw [hb] at h
              obtain ⟨total, periods⟩ := pr
              injection h with h2
              subst h2
              simp [build_results_keys sl c rest (i + 1) res' hb]

theorem groups_add_keys (acc : List (Int × GroupInfo)) (gi : GroupInfo) (gid : Int) :
    gid ∈ (groups_add acc gi).map Prod.fst ↔ gid ∈ acc.map Prod.fst ∨ gid = gi.id := by
  unfold groups_add
  by_cases hp : (dict_lookup gi.id acc).isSome
  · rw [if_pos hp]
    have hmem : gi.id ∈ acc.map Prod.fst := (dict_lookup_isSome gi.id acc).mp hp
    constructor
    · exact fun h => Or.inl h
    · rintro (h | rfl)
      · exact h
      · exact hmem
  · rw [if_neg hp]
    simp

theorem groups_go_keys (gid : Int) :
    ∀ (logs : List LogEntry) (acc : List (Int × GroupInfo)),
      gid ∈ (get_all_groups_go acc logs).map Prod.fst ↔
        gid ∈ acc.map Prod.fst ∨ ∃ l ∈ logs, mentionsGroup gid l = true
  | [], acc => by simp [get_all_groups_go]
  | log :: rest, acc => by
      unfold get_all_groups_go
      by_cases h1 : (log.itemtype_link == "Group") = true
      · have h1' : log.itemtype_link = "Group" := by simpa using h1
        rw [if_pos h1]
        by_cases h2 : (log.linked_action == GROUP_ASSIGNED_ACTION) = true
        · have h2' : log.linked_action = 15 := by
            simpa [GROUP_ASSIGNED_ACTION] using h2
          rw [if_pos h2]
          cases hE : extract_group_info_from_value log.new_value with
          | none =>
              rw [groups_go_keys gid rest acc]
              simp [mentionsGroup, h1', h2', hE,
                GROUP_ASSIGNED_ACTION, GROUP_UNASSIGNED_ACTION]
          | some gi =>
              rw [groups_go_keys gid rest (groups_add acc gi), groups_add_keys]
              have hm : mentionsGroup gid log = (gi.id == gid) := by
                simp [mentionsGroup, h1', h2', hE,
                  GROUP_ASSIGNED_ACTION, GROUP_UNASSIGNED_ACTION]
              constructor
              · rintro ((h | h) | h)
                · exact Or.inl h
                · exact Or.inr ⟨log, by simp, by rw [hm, h]; simp⟩
                · obtain ⟨x, hx, hx2⟩ := h
                  exact Or.inr ⟨x, by simp [hx], hx2⟩
              · rintro (h | ⟨x, hx, hx2⟩)
                · exact Or.inl (Or.inl h)
                · rcases List.mem_cons.mp hx with rfl | hx
                  · rw [hm] at hx2
                    have hid : gi.id = gid := by simpa using hx2
                    exact Or.inl (Or.inr hid.symm)
                  · exact Or.inr ⟨x, hx, hx2⟩
        · have h2' : log.linked_action ≠ 15 := by
            simpa [GROUP_ASSIGNED_ACTION] using h2
          rw [if_neg h2]
          by_cases h3 : (log.linked_action == GROUP_UNASSIGNED_ACTION) = true
          · have h3' : log.linked_action = 16 := by
              simpa [GROUP_UNASSIGNED_ACTION] using h3
            rw [if_pos h3]
            cases hE : extract_group_info_from_value log.old_value with
            | none =>
                rw [groups_go_keys gid rest acc]
                simp [mentionsGroup, h1', h2', h3', hE,
                  GROUP_ASSIGNED_ACTION, GROUP_UNASSIGNED_ACTION]
            | some gi =>
                rw [groups_go_keys gid rest (groups_add acc gi), groups_add_keys]
                have hm : mentionsGroup gid log = (gi.id == gid) := by
                  simp [mentionsGroup, h1', h2', h3', hE,
                    GROUP_ASSIGNED_ACTION, GROUP_UNASSIGNED_ACTION]
                constructor
                · rintro ((h | h) | h)
                  · exact Or.inl h
                  · exact Or.inr ⟨log, by simp, by rw [hm, h]; simp⟩
                  · obtain ⟨x, hx, hx2⟩ := h
                    exact Or.inr ⟨x, by simp [hx], hx2⟩
                · rintro (h | ⟨x, hx, hx2⟩)
                  · exact Or.inl (Or.inl h)
                  · rcases List.mem_cons.mp hx with rfl | hx
                    · rw [hm] at hx2
                      have hid : gi.id = gid := by simpa using hx2
                      exact Or.inl (Or.inr hid.symm)
                    · exact Or.inr ⟨x, hx, hx2⟩
          · have h3' : log.linked_action ≠ 16 := by
              simpa [GROUP_UNASSIGNED_ACTION] using h3
            rw [if_neg h3]
            rw [groups_go_keys gid rest acc]
            simp [mentionsGroup, h2', h3',
              GROUP_ASSIGNED_ACTION, GROUP_UNASSIGNED_ACTION]
      · have h1' : log.itemtype_link ≠ "Group" := by simpa using h1
        rw [if_neg h1]
        rw [groups_go_keys gid rest acc]
        simp [mentionsGroup, h1']

/-- C2 (amended): a group id appears as a key of the result mapping
exactly when some event in the input mentions it (a Group assign whose
`new_value`, or a Group unassign whose `old_value`, parses to that id).
In particular a group mentioned only by unassignment events appears in
the mapping with zero intervals; zero-interval groups are not
omitted. -/
theorem claim_C2 (logs : List LogEntry) (clock : Nat → Nat)
    (res : List (Int × GroupResult)) (gid : Int)
    (h : calculate_all_groups_time logs clock = some res) :
    (dict_lookup gid res).isSome ↔ ∃ l ∈ logs, mentionsGroup gid l = true := by
  unfold calculate_all_groups_time at h
  have hkeys := build_results_keys (sort_logs logs) clock _ 0 res h
  rw [dict_lookup_isSome gid res, hkeys]
  have hsg : ∀ gs : List (Int × GroupInfo),
      gid ∈ (sort_groups gs).map Prod.fst ↔ gid ∈ gs.map Prod.fst := by
    intro gs
    unfold sort_groups
    constructor <;> intro hmem
    · obtain ⟨p, hp, hp2⟩ := List.mem_map.mp hmem
      exact List.mem_map.mpr ⟨p, (stableSortBy_mem _ p gs).mp hp, hp2⟩
    · obtain ⟨p, hp, hp2⟩ := List.mem_map.mp hmem
      exact List.mem_map.mpr ⟨p, (stableSortBy_mem _ p gs).mpr hp, hp2⟩
  rw [hsg]
  unfold get_all_groups_from_logs
  rw [groups_go_keys gid (sort_logs logs) []]
  simp only [List.map_nil, List.not_mem_nil, false_or]
  constructor <;> rintro ⟨l, hl, hl2⟩
  · refine ⟨l, ?_, hl2⟩
    unfold sort_logs at hl
    exact (stableSortBy_mem _ l logs).mp hl
  · refine ⟨l, ?_, hl2⟩
    unfold sort_logs
    exact (stableSortBy_mem _ l logs).mpr hl

/-- The claim as stated is false: an input whose only event is an
unassignment of group 1 produces a mapping in which group 1 is present
with an empty interval list and zero counts, not omitted. -/
theorem claim_C2_counterexample :
    calculate_all_groups_time [exUnassign1] frozenClock =
      some [(1, { group_info := ⟨1, "Support"⟩, total_duration := 0,
                  periods := [], assignment_count := 0 })] := by decide

/-- Concrete instance of the amended C2. -/
theorem claim_C2_witness :
    (dict_lookup 1 [(1, GroupResult.mk ⟨1, "Support"⟩ 0 [] 0)]).isSome ↔
      ∃ l ∈ [exUnassign1], mentionsGroup 1 l = true :=
  claim_C2 [exUnassign1] frozenClock
    [(1, GroupResult.mk ⟨1, "Support"⟩ 0 [] 0)] 1 (by decide)

/-! # Claim C1: the open-interval end timestamp is sampled per group -/

/-- C1 demonstration: `calculate_time_spent_for_group` calls
`datetime.datetime.now()` inside each per-group computation, so when
the clock advances between the two per-group calls, the two groups'
still-open intervals end at different "now" timestamps (here 1000 and
1001), contradicting the claim that the synthesized end is captured
once per reconstruction call. -/
theorem claim_C1 :
    (calculate_all_groups_time [exAssign1, exAssign2] tickingClock).map openEnds =
      some [1000, 1001] ∧ (1000 : Nat) ≠ 1001 :=
  ⟨by decide, by decide⟩

/-! # Claim C9: aggregation over tickets is order-independent -/

theorem dict_lookup_upsert_eq (f : GroupTotals → GroupTotals) (k : Int) :
    ∀ t : List (Int × GroupTotals),
      dict_lookup k (upsert f t k) = some (f ((dict_lookup k t).getD default_totals))
  | [] => by simp [upsert, dict_lookup]
  | (k', v) :: rest => by
      unfold upsert
      by_cases hk : k' = k
      · subst hk
        simp [dict_lookup]
      · rw [if_neg hk]
        unfold dict_lookup
        rw [if_neg hk, if_neg hk]
        exact dict_lookup_upsert_eq f k rest

theorem dict_lookup_upsert_ne (f : GroupTotals → GroupTotals) (k gid : Int) (h : gid ≠ k) :
    ∀ t : List (Int × GroupTotals),
      dict_lookup gid (upsert f t k) = dict_lookup gid t
  | [] => by simp [upsert, dict_lookup, Ne.symm h]
  | (k', v) :: rest => by
      unfold upsert
      by_cases hk : k' = k
      · rw [if_pos hk]
        unfold dict_lookup
        have hne : ¬ k' = gid := by rw [hk]; exact Ne.symm h
        rw [if_neg hne, if_neg hne]
      · rw [if_neg hk]
        unfold dict_lookup
        by_cases hg : k' = gid
        · rw [if_pos hg, if_pos hg]
        · rw [if_neg hg, if_neg hg]
          exact dict_lookup_upsert_ne f k gid h rest

theorem contrib_tc_zero (gid : Int) :
    ∀ R : List (Int × GroupResult), (contrib R gid).2.1 = 0 → contrib R gid = (0, 0, 0)
  | [], _ => rfl
  | (k, data) :: R, h => by
      unfold contrib at h ⊢
      by_cases hk : k = gid
      · rw [if_pos hk] at h
        exact absurd h (by simp)
      · rw [if_neg hk] at h ⊢
        exact contrib_tc_zero gid R h

theorem totalsView_agg_ticket :
    ∀ (R : List (Int × GroupResult)) (t : List (Int × GroupTotals)) (gid : Int),
      totalsView (agg_ticket t R) gid = combineTotals (totalsView t gid) (contrib R gid)
  | [], t, gid => by
      unfold agg_ticket contrib totalsView
      cases h : dict_lookup gid t with
      | none => simp [combineTotals]
      | some v => simp [combineTotals]
  | (k, data) :: R, t, gid => by
      unfold agg_ticket contrib
      rw [totalsView_agg_ticket R (upsert_entry t k data) gid]
      by_cases hk : k = gid
      · subst hk
        rw [if_pos rfl]
        unfold totalsView upsert_entry
        rw [dict_lookup_upsert_eq]
        cases h : dict_lookup k t with
        | none =>
            simp only [h, Option.getD_none, Option.map_some, Option.map_none]
            obtain ⟨d, tc, ac⟩ := contrib R k
            simp [combineTotals, default_totals, add_assoc]
        | some v =>
            simp only [h, Option.getD_some, Option.map_some]
            obtain ⟨d, tc, ac⟩ := contrib R k
            simp [combineTotals, add_assoc, add_left_comm, add_comm]
      · rw [if_neg hk]
        unfold totalsView upsert_entry
        rw [dict_lookup_upsert_ne _ _ _ (fun hx => hk hx.symm)]

theorem combineTotals_zero (o : Option (Int × Nat × Nat)) :
    combineTotals o (0, 0, 0) = o := by
  cases o with
  | none => simp [combineTotals]
  | some v =>
      obtain ⟨d, t, a⟩ := v
      simp [combineTotals]

/-- C9: folding the per-ticket result mappings of tickets `A` then `B`
gives every group the same total duration, ticket count and assignment
count as folding `B` then `A`.  (The `group_info` field is first-seen
and genuinely order-dependent, so the claim's three numeric fields are
compared.) -/
theorem claim_C9 (A B : List (Int × GroupResult)) (gid : Int) :
    totalsView (aggregate_group_totals [A, B]) gid =
      totalsView (aggregate_group_totals [B, A]) gid := by
  unfold aggregate_group_totals
  simp only [List.foldl]
  rw [totalsView_agg_ticket B (agg_ticket [] A) gid, totalsView_agg_ticket A [] gid,
      totalsView_agg_ticket A (agg_ticket [] B) gid, totalsView_agg_ticket B [] gid]
  have hnil : totalsView [] gid = none := rfl
  rw [hnil]
  have h0 : combineTotals none (0, 0, 0) = none := by simp [combineTotals]
  by_cases ha : (contrib A gid).2.1 = 0
  · rw [contrib_tc_zero gid A ha, h0, combineTotals_zero]
  · by_cases hb : (contrib B gid).2.1 = 0
    · rw [contrib_tc_zero gid B hb, h0, combineTotals_zero]
    · rcases hA : contrib A gid with ⟨da, ta, aa⟩
      rcases hB : contrib B gid with ⟨db, tb, ab⟩
      rw [hA] at ha
      rw [hB] at hb
      have ha' : ¬ (ta = 0) := ha
      have hb' : ¬ (tb = 0) := hb
      simp only [combineTotals, if_neg ha', if_neg hb', Option.some.injEq, Prod.mk.injEq]
      exact ⟨by omega, by omega, by omega⟩

/-! # Claim C6: the group-identity parsing rule -/

theorem rfind_eq_lastIdxOf (c : Char) :
    ∀ l : List Char,
      rfind c l = (match lastIdxOf c l with | none => (-1 : Int) | some i => (i : Int))
  | [] => rfl
  | x :: xs => by
      have ih := rfind_eq_lastIdxOf c xs
      unfold rfind lastIdxOf
      cases h : lastIdxOf c xs with
      | none =>
          rw [h] at ih
          rw [ih]
          by_cases hx : (x == c) = true <;> simp [hx]
      | some i =>
          rw [h] at ih
          rw [ih]
          have hne : (((i : Nat) : Int) == -1) = false := by
            simp only [beq_eq_false_iff_ne, ne_eq]
            omega
          simp [hne]

theorem lastIdxOf_mem (c : Char) :
    ∀ (l : List Char) (i : Nat), lastIdxOf c l = some i → c ∈ l
  | [], i, h => by exact absurd h (by simp [lastIdxOf])
  | x :: xs, i, h => by
      unfold lastIdxOf at h
      cases h2 : lastIdxOf c xs with
      | some j =>
          rw [h2] at h
          exact List.mem_cons_of_mem x (lastIdxOf_mem c xs j h2)
      | none =>
          rw [h2] at h
          by_cases hx : (x == c) = true
          · have hxc : x = c := by simpa using hx
            subst hxc
            exact List.mem_cons_self x xs
          · rw [if_neg hx] at h
            exact absurd h (by simp)

theorem pyStrip_all_space (l : List Char) (h : pyStrip l = []) :
    ∀ c ∈ l, isPySpace c = true := by
  unfold pyStrip at h
  rw [List.reverse_eq_nil_iff, List.dropWhile_eq_nil_iff] at h
  intro c hc
  have hc2 : c ∈ l.takeWhile isPySpace ++ l.dropWhile isPySpace := by
    rw [List.takeWhile_append_dropWhile]
    exact hc
  rcases List.mem_append.mp hc2 with h1 | h1
  · exact List.mem_takeWhile_imp h1
  · exact h c (List.mem_reverse.mpr h1)

/-- C6: for every string, the classifier implements exactly the
spec's rule (last `(`, last `)`, integer between them, trimmed name
before the `(`; anything else yields no identity, without raising);
in particular `"(1)"` gives id 1 with empty name and `"NoParens"`
gives nothing. -/
theorem claim_C6 :
    (∀ value : String, extract_group_info_from_value value = group_value_rule value) ∧
    extract_group_info_from_value "(1)" = some ⟨1, ""⟩ ∧
    extract_group_info_from_value "NoParens" = none := by
  refine ⟨?_, by decide, by decide⟩
  intro value
  unfold extract_group_info_from_value group_value_rule
  cases hO : lastIdxOf '(' value.data with
  | none =>
      have hrf : rfind '(' value.data = -1 := by rw [rfind_eq_lastIdxOf, hO]
      cases hC : lastIdxOf ')' value.data with
      | none => simp [hrf]
      | some j => simp [hrf]
  | some i =>
      have hrf : rfind '(' value.data = (i : Int) := by rw [rfind_eq_lastIdxOf, hO]
      cases hC : lastIdxOf ')' value.data with
      | none =>
          have hrf2 : rfind ')' value.data = -1 := by rw [rfind_eq_lastIdxOf, hC]
          simp [hrf, hrf2]
      | some j =>
          have hrf2 : rfind ')' value.data = (j : Int) := by rw [rfind_eq_lastIdxOf, hC]
          have hmem := lastIdxOf_mem '(' value.data i hO
          have hguard : ¬ ((value.data.isEmpty || (pyStrip value.data).isEmpty) = true) := by
            intro hg
            have hg' : value.data = [] ∨ pyStrip value.data = [] := by simpa using hg
            rcases hg' with hg2 | hg2
            · rw [hg2] at hmem
              exact absurd hmem (by simp)
            · have := pyStrip_all_space value.data hg2 '(' hmem
              exact absurd this (by decide)
          rw [if_neg hguard]
          simp only [hrf, hrf2]
          by_cases hij : i < j
          · have h1 : (((i : Nat) : Int) != -1) = true := by
              simp only [bne_iff_ne, ne_eq]
              omega
            have h2 : (((j : Nat) : Int) != -1) = true := by
              simp only [bne_iff_ne, ne_eq]
              omega
            have h3 : decide (((i : Nat) : Int) < ((j : Nat) : Int)) = true := by
              simp only [decide_eq_true_eq]
              exact_mod_cast hij
            have hcond : ((((i : Nat) : Int) != -1) && (((j : Nat) : Int) != -1)
                && decide (((i : Nat) : Int) < ((j : Nat) : Int))) = true := by
              rw [h1, h2, h3]
              rfl
            rw [if_pos hcond, if_pos hij]
            simp
          · have h3 : decide (((i : Nat) : Int) < ((j : Nat) : Int)) = false := by
              simp only [decide_eq_false_iff_not]
              intro hx
              exact hij (by exact_mod_cast hx)
            have hcond : ((((i : Nat) : Int) != -1) && (((j : Nat) : Int) != -1)
                && decide (((i : Nat) : Int) < ((j : Nat) : Int))) = false := by
              rw [h3]
              simp
            rw [if_neg (show ¬ _ = true by rw [hcond]; simp), if_neg hij]
